import Mathlib

/-! Verification of the viewport/interaction core of the pdfjs-react viewer.

The definitions below are shallow embeddings of the TypeScript source:
the scale/rotation policy engine and command surface of the usePDFViewer
hook, the initial-scale calculation and page virtualizer of the PDFViewer
component, the zoom interaction guard of useZoomPrevention, the source
classifier parseSource, the document lifecycle controller of
usePDFDocument, and the scroll page tracker of usePageTracking.
Numbers are modelled as rationals (geometry, scales) and integers
(indices, rotations); JavaScript promises become explicit settlement
operations on a controller state. -/

namespace PdfjsReact

/-- Zoom step per zoomIn/zoomOut call (`const ZOOM_STEP = 0.25`). -/
def ZOOM_STEP : ℚ := 1/4

/-- Lower scale bound (`const MIN_SCALE = 0.1`). -/
def MIN_SCALE : ℚ := 1/10

/-- Upper scale bound (`const MAX_SCALE = 10`). -/
def MAX_SCALE : ℚ := 10

/-- Viewport state of the viewer: current page, scale and rotation.
Rotation is an integer because at runtime any number can be stored. -/
@[ext]
structure ViewportState where
  currentPage : ℤ
  currentScale : ℚ
  currentRotation : ℤ
deriving DecidableEq, Repr

/-- The `ScaleValue` union type: a number or a named policy. -/
inductive ScaleValue where
  | num (value : ℚ)
  | pageWidth
  | pageFit
  | pageActual
  | auto
deriving DecidableEq, Repr

/-- Geometry consulted by the named-policy branch of `setScale`:
container client size and the page-1 viewport at scale 1. -/
structure PageGeometry where
  containerClientWidth : ℚ
  containerClientHeight : ℚ
  viewportWidth : ℚ
  viewportHeight : ℚ
deriving DecidableEq, Repr

/-- `zoomIn` from usePDFViewer: no-op unless zoom is enabled, otherwise
`Math.min(currentScale + ZOOM_STEP, MAX_SCALE)`. -/
def zoomIn (zoomEnabled : Bool) (v : ViewportState) : ViewportState :=
  if !zoomEnabled then v
  else { v with currentScale := min (v.currentScale + ZOOM_STEP) MAX_SCALE }

/-- `zoomOut` from usePDFViewer: no-op unless zoom is enabled, otherwise
`Math.max(currentScale - ZOOM_STEP, MIN_SCALE)`. -/
def zoomOut (zoomEnabled : Bool) (v : ViewportState) : ViewportState :=
  if !zoomEnabled then v
  else { v with currentScale := max (v.currentScale - ZOOM_STEP) MIN_SCALE }

/-- `setScale` from usePDFViewer.  A numeric value is clamped with
`Math.max(MIN_SCALE, Math.min(scale, MAX_SCALE))`; a named value is
resolved against the container client size minus 40 of padding and the
page-1 viewport at scale 1, then clamped the same way.  No-op when zoom
is disabled. -/
def setScale (zoomEnabled : Bool) (geo : PageGeometry) (scale : ScaleValue)
    (v : ViewportState) : ViewportState :=
  if !zoomEnabled then v
  else
    match scale with
    | ScaleValue.num x =>
        { v with currentScale := max MIN_SCALE (min x MAX_SCALE) }
    | ScaleValue.pageWidth =>
        { v with currentScale := (max MIN_SCALE (min
            ((geo.containerClientWidth - 40) / geo.viewportWidth) MAX_SCALE)) }
    | ScaleValue.pageFit =>
        { v with currentScale := (max MIN_SCALE (min
            (min ((geo.containerClientWidth - 40) / geo.viewportWidth)
                 ((geo.containerClientHeight - 40) / geo.viewportHeight))
            MAX_SCALE)) }
    | ScaleValue.pageActual =>
        { v with currentScale := max MIN_SCALE (min 1 MAX_SCALE) }
    | ScaleValue.auto =>
        { v with currentScale := (max MIN_SCALE (min
            (min ((geo.containerClientWidth - 40) / geo.viewportWidth) (3/2))
            MAX_SCALE)) }

/-- `rotate` from usePDFViewer:
`((currentRotation + degrees + 360) % 360)`. -/
def rotate (v : ViewportState) (degrees : ℤ) : ViewportState :=
  { v with currentRotation := (v.currentRotation + degrees + 360) % 360 }

/-- `setRotation` from usePDFViewer: stores the given value directly via
`setCurrentRotation(degrees)` with no runtime validation. -/
def setRotation (v : ViewportState) (degrees : ℤ) : ViewportState :=
  { v with currentRotation := degrees }

/-- `calculateInitialScale` from PDFViewer: resolves the initial scale
prop against container and page geometry.  Note: no clamping here. -/
def calculateInitialScale (scaleValue : ScaleValue)
    (containerWidth containerHeight pageWidth pageHeight : ℚ) : ℚ :=
  match scaleValue with
  | ScaleValue.num x => x
  | ScaleValue.pageWidth => (containerWidth - 40) / pageWidth
  | ScaleValue.pageFit =>
      min ((containerWidth - 40) / pageWidth) ((containerHeight - 40) / pageHeight)
  | ScaleValue.pageActual => 1
  | ScaleValue.auto => min ((containerWidth - 40) / pageWidth) (3/2)

/-- Wheel handler of useZoomPrevention; returns whether the event is
suppressed (preventDefault + stopPropagation). -/
def handleWheel (enabled ctrlKey metaKey : Bool) : Bool :=
  if enabled then false else ctrlKey || metaKey

/-- Touch-start handler of useZoomPrevention: suppresses multi-touch. -/
def handleTouchStart (enabled : Bool) (touches : ℕ) : Bool :=
  if enabled then false else decide (1 < touches)

/-- Touch-move handler of useZoomPrevention: suppresses multi-touch. -/
def handleTouchMove (enabled : Bool) (touches : ℕ) : Bool :=
  if enabled then false else decide (1 < touches)

/-- Key-down handler of useZoomPrevention: suppresses modifier plus one
of the four zoom shortcut keys. -/
def handleKeyDown (enabled ctrlKey metaKey : Bool) (key : String) : Bool :=
  if enabled then false
  else (ctrlKey || metaKey) && (key == "+" || key == "=" || key == "-" || key == "0")

/-- Safari gesture-start handler of useZoomPrevention: suppresses
unconditionally while zoom is disabled. -/
def handleGestureStart (enabled : Bool) : Bool := !enabled

/-- Safari gesture-change handler of useZoomPrevention. -/
def handleGestureChange (enabled : Bool) : Bool := !enabled

/-- Runtime value passed as the `src` prop: the three members of the
`PDFSource` union, plus anything else (`invalid`). -/
inductive PDFSource where
  | str (value : String)
  | uint8Array (data : List ℕ)
  | arrayBuffer (data : List ℕ)
  | invalid
deriving DecidableEq, Repr

/-- The `SourceType` union of parseSource. -/
inductive SourceType where
  | url
  | base64
  | binary
deriving DecidableEq, Repr

/-- Payload of a parsed source: the original string or a byte sequence. -/
inductive SourceData where
  | str (value : String)
  | bytes (data : List ℕ)
deriving DecidableEq, Repr

/-- The `ParsedSource` record of parseSource. -/
structure ParsedSource where
  type : SourceType
  data : SourceData
deriving DecidableEq, Repr

/-- `isBase64DataUri` from parseSource.ts. -/
def isBase64DataUri (s : String) : Bool :=
  s.startsWith ("data:application/pdf;base64,") ||
    s.startsWith ("data:application/octet-stream;base64,")

/-- `isUrl` from parseSource.ts.  The `new URL(str, location.href)`
try/catch is abstracted as a caller-supplied predicate. -/
def isUrl (tryParseUrl : String → Bool) (s : String) : Bool :=
  if s.startsWith ("http://") || s.startsWith ("https://") || s.startsWith ("/")
  then true
  else tryParseUrl s

/-- `parseSource` from parseSource.ts.  The synchronous `throw` is
modelled as `Except.error`. -/
def parseSource (tryParseUrl : String → Bool) (src : PDFSource) :
    Except String ParsedSource :=
  match src with
  | PDFSource.uint8Array data =>
      Except.ok ⟨SourceType.binary, SourceData.bytes data⟩
  | PDFSource.arrayBuffer data =>
      Except.ok ⟨SourceType.binary, SourceData.bytes data⟩
  | PDFSource.str s =>
      if isBase64DataUri s then Except.ok ⟨SourceType.base64, SourceData.str s⟩
      else if isUrl tryParseUrl s then Except.ok ⟨SourceType.url, SourceData.str s⟩
      else Except.ok ⟨SourceType.url, SourceData.str s⟩
  | PDFSource.invalid => Except.error ("Invalid PDF source type")

/-- The `PDFViewerState` union of the document lifecycle. -/
inductive LoadState where
  | idle
  | loading
  | ready
  | error
deriving DecidableEq, Repr

/-- Observable callback invocations of usePDFDocument, in order. -/
inductive CallbackEvent where
  | loadStart
  | loadSuccess (docInfo : ℕ)
  | loadError (errorName : String)
  | passwordRequired
deriving DecidableEq, Repr

/-- State of the document lifecycle controller (usePDFDocument).
Document handles and info records are identified by natural numbers;
`doc`/`info`/`error` are the published React state, `docRef` is
`documentRef.current`, `destroyed` records every handle on which
`destroy()` has been called, and `events` logs callback invocations. -/
structure ControllerState where
  version : ℕ
  state : LoadState
  doc : Option ℕ
  info : Option ℕ
  error : Option String
  docRef : Option ℕ
  destroyed : List ℕ
  events : List CallbackEvent
deriving DecidableEq, Repr

/-- The synchronous part of `load()` in usePDFDocument when a source is
present: increment the version, destroy the previously held document,
enter the loading state, clear the error and fire onLoadStart. -/
def load (s : ControllerState) : ControllerState :=
  { s with
    version := s.version + 1,
    destroyed := s.destroyed ++ s.docRef.toList,
    docRef := none,
    state := LoadState.loading,
    error := none,
    events := s.events ++ [CallbackEvent.loadStart] }

/-- Settlement of a load operation's success continuation, carrying the
generation `g` captured when the operation started.  A stale operation
(`g` differs from the current version) destroys the fresh handle and
returns without side effects; a current one publishes the handle. -/
def settleSuccess (s : ControllerState) (g : ℕ) (handle docInfo : ℕ) :
    ControllerState :=
  if g ≠ s.version then { s with destroyed := s.destroyed ++ [handle] }
  else
    { s with
      docRef := some handle,
      doc := some handle,
      info := some docInfo,
      state := LoadState.ready,
      events := s.events ++ [CallbackEvent.loadSuccess docInfo] }

/-- Settlement of a load operation's failure continuation.  A stale
failure is ignored silently; a current one distinguishes the
PasswordException name, firing the dedicated callback in addition to the
generic error path. -/
def settleFailure (s : ControllerState) (g : ℕ) (errorName : String) :
    ControllerState :=
  if g ≠ s.version then s
  else
    { s with
      error := some errorName,
      state := LoadState.error,
      events := s.events ++
        (if errorName = "PasswordException"
         then [CallbackEvent.passwordRequired, CallbackEvent.loadError errorName]
         else [CallbackEvent.loadError errorName]) }

/-- Per-page geometry seen by the page tracker: page number, offset of
the element top inside the scroll content, and element height. -/
structure PageEntry where
  pageNumber : ℕ
  top : ℚ
  height : ℚ
deriving DecidableEq, Repr

/-- Visibility ratio of a page inside the container's visible band,
exactly as computed in calculateVisiblePage of usePageTracking. -/
def visibility (containerTop containerHeight : ℚ) (e : PageEntry) : ℚ :=
  let elementTop := e.top
  let elementBottom := e.top + e.height
  let visibleTop := max elementTop containerTop
  let visibleBottom := min elementBottom (containerTop + containerHeight)
  let visibleHeight := max 0 (visibleBottom - visibleTop)
  visibleHeight / e.height

/-- Whether a page's span contains the vertical center of the visible
band (the center-priority override of calculateVisiblePage). -/
def straddlesCenter (containerTop containerHeight : ℚ) (e : PageEntry) : Prop :=
  e.top ≤ containerTop + containerHeight / 2 ∧
    containerTop + containerHeight / 2 ≤ e.top + e.height

instance (containerTop containerHeight : ℚ) (e : PageEntry) :
    Decidable (straddlesCenter containerTop containerHeight e) :=
  instDecidableAnd

/-- One iteration of the forEach loop in calculateVisiblePage, acting on
the (mostVisiblePage, maxVisibility) accumulator. -/
def trackStep (containerTop containerHeight : ℚ) (acc : ℕ × ℚ)
    (e : PageEntry) : ℕ × ℚ :=
  let vis := visibility containerTop containerHeight e
  let acc1 := if acc.2 < vis then (e.pageNumber, vis) else acc
  if straddlesCenter containerTop containerHeight e then (e.pageNumber, (1 : ℚ))
  else acc1

/-- The winner computation of calculateVisiblePage: fold the per-page
step over all page entries starting from page 1 with visibility 0. -/
def calculateVisiblePage (containerTop containerHeight : ℚ)
    (entries : List PageEntry) : ℕ × ℚ :=
  entries.foldl (trackStep containerTop containerHeight) (1, 0)

/-- The notification gate of calculateVisiblePage:
`maxVisibility >= threshold && mostVisiblePage !== lastPage`. -/
def shouldNotify (threshold : ℚ) (lastPage : ℕ) (r : ℕ × ℚ) : Prop :=
  threshold ≤ r.2 ∧ r.1 ≠ lastPage

instance (threshold : ℚ) (lastPage : ℕ) (r : ℕ × ℚ) :
    Decidable (shouldNotify threshold lastPage r) :=
  instDecidableAnd

/-- Reference definition for the spec side of the page-tracking claim:
the maximum visibility ratio over all page entries (0 when none). -/
def specMaxVisibility (containerTop containerHeight : ℚ)
    (entries : List PageEntry) : ℚ :=
  entries.foldl (fun m e => max m (visibility containerTop containerHeight e)) 0

/-- Bounding geometry of one page element relative to the container top,
as read in updateVisibleRange of the PDFPages component. -/
structure PageRect where
  top : ℚ
  bottom : ℚ
deriving DecidableEq, Repr

/-- The initial visible range of PDFPages:
`useState({ start: 0, end: 5 })`, before any recomputation. -/
def initialVisibleRange : ℤ × ℤ := (0, 5)

/-- The forEach loop of updateVisibleRange: walk the page elements with
their index, updating startIndex and endIndex. -/
def rangeFoldAux (containerHeight : ℚ) (n : ℤ) :
    List PageRect → ℤ → ℤ × ℤ → ℤ × ℤ
  | [], _, acc => acc
  | r :: rs, i, acc =>
      rangeFoldAux containerHeight n rs (i + 1)
        (if r.bottom < -containerHeight then max 0 (i - 2) else acc.1,
         if r.top > containerHeight * 2 then min (n - 1) (i + 2) else acc.2)

/-- `updateVisibleRange` of PDFPages: run the loop over all page
elements, then expand by the 2-page buffer and clamp to valid indices. -/
def updateVisibleRange (containerHeight : ℚ) (rects : List PageRect) : ℤ × ℤ :=
  let n : ℤ := rects.length
  let p := rangeFoldAux containerHeight n rects 0 (0, n - 1)
  (max 0 (p.1 - 2), min (n - 1) (p.2 + 2))

/-- The visible-range invariant claimed by the spec:
`0 ≤ start ≤ end ≤ pageCount-1`, and `end - start ≥ 4` whenever
`pageCount ≥ 5`. -/
def rangeInvariant (pageCount : ℤ) (r : ℤ × ℤ) : Prop :=
  0 ≤ r.1 ∧ r.1 ≤ r.2 ∧ r.2 ≤ pageCount - 1 ∧
    (5 ≤ pageCount → 4 ≤ r.2 - r.1)

/-- C4: for every current rotation in {0, 90, 180, 270} and delta in
{+90, -90}, rotate(delta) computes ((current + delta + 360) mod 360),
which is always in {0, 90, 180, 270}; rotate(90) applied four times
returns to the start, and rotate(-90) is the exact inverse of
rotate(90). -/
theorem C4_rotate_arithmetic (v : ViewportState)
    (hr : v.currentRotation = 0 ∨ v.currentRotation = 90 ∨
      v.currentRotation = 180 ∨ v.currentRotation = 270)
    (d : ℤ) (hd : d = 90 ∨ d = -90) :
    (rotate v d).currentRotation = (v.currentRotation + d + 360) % 360 ∧
    ((rotate v d).currentRotation = 0 ∨ (rotate v d).currentRotation = 90 ∨
      (rotate v d).currentRotation = 180 ∨ (rotate v d).currentRotation = 270) ∧
    rotate (rotate (rotate (rotate v 90) 90) 90) 90 = v ∧
    rotate (rotate v 90) (-90) = v ∧
    rotate (rotate v (-90)) 90 = v := by
  obtain ⟨p, sc, r⟩ := v
  rcases hr with h | h | h | h <;> rcases hd with h2 | h2 <;>
    subst h <;> subst h2 <;>
      refine ⟨rfl, ?_, ?_, ?_, ?_⟩ <;>
        first
          | (simp only [rotate]; decide)
          | (apply ViewportState.ext <;>
              first | rfl | (simp only [rotate]; decide))

/-- Witness for C4 at rotation 90 and delta 90. -/
theorem C4_rotate_arithmetic_witness :
    rotate (rotate (ViewportState.mk 1 1 90) 90) (-90) = ViewportState.mk 1 1 90 :=
  (C4_rotate_arithmetic (ViewportState.mk 1 1 90)
    (Or.inr (Or.inl rfl)) 90 (Or.inl rfl)).2.2.2.1

/-- C7: zoomIn adds exactly 0.25 clamped above by 10, zoomOut subtracts
exactly 0.25 clamped below by 0.1, and whenever neither clamp bound
saturates, zoomOut exactly undoes zoomIn. -/
theorem C7_zoom_step_inverse (v : ViewportState)
    (hlo : MIN_SCALE ≤ v.currentScale)
    (hhi : v.currentScale + ZOOM_STEP ≤ MAX_SCALE) :
    (zoomIn true v).currentScale = min (v.currentScale + ZOOM_STEP) MAX_SCALE ∧
    (zoomOut true v).currentScale = max (v.currentScale - ZOOM_STEP) MIN_SCALE ∧
    zoomOut true (zoomIn true v) = v := by
  obtain ⟨p, sc, r⟩ := v
  have hlo2 : MIN_SCALE ≤ sc := hlo
  have hhi2 : sc + ZOOM_STEP ≤ MAX_SCALE := hhi
  have e1 : min (sc + ZOOM_STEP) MAX_SCALE = sc + ZOOM_STEP := min_eq_left hhi2
  have e2 : max (sc + ZOOM_STEP - ZOOM_STEP) MIN_SCALE = sc := by
    rw [add_sub_cancel_right]
    exact max_eq_left hlo2
  refine ⟨rfl, rfl, ?_⟩
  simp [zoomIn, zoomOut, e1, e2, hlo2]

/-- Witness for C7 at scale 1. -/
theorem C7_zoom_step_inverse_witness :
    zoomOut true (zoomIn true (ViewportState.mk 1 1 0)) = ViewportState.mk 1 1 0 :=
  (C7_zoom_step_inverse (ViewportState.mk 1 1 0)
    (by norm_num [MIN_SCALE])
    (by norm_num [ZOOM_STEP, MAX_SCALE])).2.2

/-- C2 counterexample: resolving the page-width policy through
calculateInitialScale against a 2040-wide container and a 100-wide page
yields scale 20, which exceeds the 10.0 upper bound — the initial-scale
resolution is not clamped. -/
theorem C2_counterexample :
    calculateInitialScale ScaleValue.pageWidth 2040 540 100 200 = 20 ∧
    ¬ calculateInitialScale ScaleValue.pageWidth 2040 540 100 200 ≤ MAX_SCALE := by
  have h : calculateInitialScale ScaleValue.pageWidth 2040 540 100 200 = 20 := by
    simp only [calculateInitialScale]
    norm_num
  refine ⟨h, ?_⟩
  rw [h, MAX_SCALE]
  norm_num

/-- C2 (amended): every scale committed through setScale with zoom
enabled lies in [0.1, 10], with the numeric case equal to
clamp(x, 0.1, 10); but calculateInitialScale passes a numeric initial
scale through unclamped (and, per the counterexample, does not clamp
policy resolutions either). -/
theorem C2_setScale_clamped (geo : PageGeometry) (scale : ScaleValue)
    (v : ViewportState) (x cw ch pw ph : ℚ) :
    (setScale true geo (ScaleValue.num x) v).currentScale =
      max MIN_SCALE (min x MAX_SCALE) ∧
    MIN_SCALE ≤ (setScale true geo scale v).currentScale ∧
    (setScale true geo scale v).currentScale ≤ MAX_SCALE ∧
    calculateInitialScale (ScaleValue.num x) cw ch pw ph = x := by
  refine ⟨rfl, ?_, ?_, rfl⟩
  · cases scale <;> exact le_max_left _ _
  · cases scale <;>
      exact max_le (by norm_num [MIN_SCALE, MAX_SCALE]) (min_le_right _ _)

/-- C6: with zoom policy-disabled, zoomIn, zoomOut and setScale leave the
whole viewport state (hence getCurrentScale) unchanged, and the
interaction guard suppresses wheel-with-modifier, multi-touch, platform
gesture, and modifier zoom-shortcut keyboard events. -/
theorem C6_zoom_disabled_noop (v : ViewportState) (geo : PageGeometry)
    (sv : ScaleValue) (ctrlKey metaKey : Bool) (touches : ℕ) (key : String) :
    zoomIn false v = v ∧ zoomOut false v = v ∧ setScale false geo sv v = v ∧
    handleWheel false ctrlKey metaKey = (ctrlKey || metaKey) ∧
    handleTouchStart false touches = decide (1 < touches) ∧
    handleTouchMove false touches = decide (1 < touches) ∧
    handleKeyDown false ctrlKey metaKey key =
      ((ctrlKey || metaKey) &&
        (key == "+" || key == "=" || key == "-" || key == "0")) ∧
    handleGestureStart false = true ∧
    handleGestureChange false = true :=
  ⟨rfl, rfl, rfl, rfl, rfl, rfl, rfl, rfl, rfl⟩

/-- C8 counterexample: setRotation(45) — a value outside
{0, 90, 180, 270} — is stored, changing the current rotation instead of
leaving it unchanged. -/
theorem C8_counterexample :
    (setRotation (ViewportState.mk 1 1 0) 45).currentRotation ≠
      (ViewportState.mk 1 1 0).currentRotation ∧
    ((45 : ℤ) ≠ 0 ∧ (45 : ℤ) ≠ 90 ∧ (45 : ℤ) ≠ 180 ∧ (45 : ℤ) ≠ 270) := by
  refine ⟨?_, by decide⟩
  simp only [setRotation]
  decide

/-- C8 (amended): setRotation performs no runtime validation — it stores
any passed value unchanged (only the static TypeScript type restricts
callers to {0, 90, 180, 270}), leaving page and scale untouched. -/
theorem C8_setRotation_stores_raw (v : ViewportState) (d : ℤ) :
    (setRotation v d).currentRotation = d ∧
    (setRotation v d).currentPage = v.currentPage ∧
    (setRotation v d).currentScale = v.currentScale :=
  ⟨rfl, rfl, rfl⟩

/-- C9: a current (non-stale) load failure named PasswordException fires
the dedicated password callback in addition to the generic error path:
the error state is entered, the error is published, and the generic
error callback still fires after the password callback. -/
theorem C9_password_error_dual_path (s : ControllerState) :
    (settleFailure s s.version ("PasswordException")).state = LoadState.error ∧
    (settleFailure s s.version ("PasswordException")).error =
      some ("PasswordException") ∧
    (settleFailure s s.version ("PasswordException")).events =
      s.events ++ [CallbackEvent.passwordRequired,
        CallbackEvent.loadError ("PasswordException")] := by
  simp [settleFailure]

/-- C10: parseSource is total on strings — a string with a recognized
base64 data-URI marker is classified base64 and every other string is
classified url (never an error) — and the synchronous invalid-source
error occurs exactly for inputs that are neither a string, a Uint8Array,
nor an ArrayBuffer. -/
theorem C10_parseSource_total_on_strings (tryParseUrl : String → Bool)
    (s : String) (data : List ℕ) :
    parseSource tryParseUrl (PDFSource.str s) =
      Except.ok ⟨if isBase64DataUri s then SourceType.base64 else SourceType.url,
        SourceData.str s⟩ ∧
    parseSource tryParseUrl (PDFSource.uint8Array data) =
      Except.ok ⟨SourceType.binary, SourceData.bytes data⟩ ∧
    parseSource tryParseUrl (PDFSource.arrayBuffer data) =
      Except.ok ⟨SourceType.binary, SourceData.bytes data⟩ ∧
    (∀ src : PDFSource,
      (∃ e, parseSource tryParseUrl src = Except.error e) ↔
        src = PDFSource.invalid) := by
  refine ⟨?_, rfl, rfl, ?_⟩
  · cases h : isBase64DataUri s <;> simp [parseSource, h]
  · intro src
    cases src <;> simp [parseSource]
    split_ifs <;> simp

/-- Witness for C10 on binary input. -/
theorem C10_parseSource_witness :
    parseSource (fun _ => false) (PDFSource.uint8Array [1, 2, 3]) =
      Except.ok ⟨SourceType.binary, SourceData.bytes [1, 2, 3]⟩ :=
  (C10_parseSource_total_on_strings (fun _ => false) ("x") [1, 2, 3]).2.1

/-- C1: an operation whose captured generation differs from the current
version cannot publish — a stale success destroys its fresh handle and
changes nothing observable, a stale failure is silently ignored — and in
the two-load scenario (load src1, then load src2 before src1 settles)
the committed document, in either settlement order, is src2's handle
while src1's handle is destroyed and never published. -/
theorem C1_stale_generation_guard (s : ControllerState)
    (g h1 h2 inf1 inf2 : ℕ) (errName : String) (hg : g ≠ s.version) :
    ((settleSuccess s g h1 inf1).doc = s.doc ∧
     (settleSuccess s g h1 inf1).info = s.info ∧
     (settleSuccess s g h1 inf1).state = s.state ∧
     (settleSuccess s g h1 inf1).error = s.error ∧
     (settleSuccess s g h1 inf1).events = s.events ∧
     h1 ∈ (settleSuccess s g h1 inf1).destroyed) ∧
    settleFailure s g errName = s ∧
    ((settleSuccess (load (load s)) (s.version + 1) h1 inf1).doc =
        (load (load s)).doc ∧
     h1 ∈ (settleSuccess (load (load s)) (s.version + 1) h1 inf1).destroyed ∧
     (settleSuccess (settleSuccess (load (load s)) (s.version + 1) h1 inf1)
        (s.version + 2) h2 inf2).doc = some h2 ∧
     (settleSuccess (settleSuccess (load (load s)) (s.version + 1) h1 inf1)
        (s.version + 2) h2 inf2).state = LoadState.ready ∧
     (settleSuccess (settleSuccess (load (load s)) (s.version + 2) h2 inf2)
        (s.version + 1) h1 inf1).doc = some h2 ∧
     (settleSuccess (settleSuccess (load (load s)) (s.version + 2) h2 inf2)
        (s.version + 1) h1 inf1).state = LoadState.ready ∧
     h1 ∈ (settleSuccess (settleSuccess (load (load s)) (s.version + 2) h2 inf2)
        (s.version + 1) h1 inf1).destroyed ∧
     settleFailure (load (load s)) (s.version + 1) errName = load (load s)) := by
  have hv2 : (load (load s)).version = s.version + 2 := rfl
  have hg1 : s.version + 1 ≠ (load (load s)).version := by
    rw [hv2]; omega
  have e1v : (settleSuccess (load (load s)) (s.version + 1) h1 inf1).version =
      s.version + 2 := by
    rw [settleSuccess.eq_def, if_pos hg1]
    exact hv2
  have e3v : (settleSuccess (load (load s)) (s.version + 2) h2 inf2).version =
      s.version + 2 := by
    rw [settleSuccess.eq_def, hv2, if_neg (by omega)]
  refine ⟨⟨?_, ?_, ?_, ?_, ?_, ?_⟩, ?_, ?_, ?_, ?_, ?_, ?_, ?_, ?_, ?_⟩
  · rw [settleSuccess.eq_def, if_pos hg]
  · rw [settleSuccess.eq_def, if_pos hg]
  · rw [settleSuccess.eq_def, if_pos hg]
  · rw [settleSuccess.eq_def, if_pos hg]
  · rw [settleSuccess.eq_def, if_pos hg]
  · rw [settleSuccess.eq_def, if_pos hg]
    exact List.mem_append_right _ (List.mem_singleton_self h1)
  · rw [settleFailure.eq_def, if_pos hg]
  · rw [settleSuccess.eq_def, if_pos hg1]
  · rw [settleSuccess.eq_def, if_pos hg1]
    exact List.mem_append_right _ (List.mem_singleton_self h1)
  · rw [settleSuccess.eq_def, e1v, if_neg (by omega)]
  · rw [settleSuccess.eq_def, e1v, if_neg (by omega)]
  · rw [settleSuccess.eq_def, if_pos (by rw [e3v]; omega)]
    show (settleSuccess (load (load s)) (s.version + 2) h2 inf2).doc = some h2
    rw [settleSuccess.eq_def, hv2, if_neg (by omega)]
  · rw [settleSuccess.eq_def, if_pos (by rw [e3v]; omega)]
    show (settleSuccess (load (load s)) (s.version + 2) h2 inf2).state =
      LoadState.ready
    rw [settleSuccess.eq_def, hv2, if_neg (by omega)]
  · rw [settleSuccess.eq_def, if_pos (by rw [e3v]; omega)]
    exact List.mem_append_right _ (List.mem_singleton_self h1)
  · rw [settleFailure.eq_def, if_pos hg1]

/-- Witness for C1 from the idle initial state with generation 5. -/
theorem C1_stale_generation_guard_witness :
    settleFailure
        (ControllerState.mk 0 LoadState.idle none none none none [] [])
        5 ("NetworkError") =
      ControllerState.mk 0 LoadState.idle none none none none [] [] :=
  (C1_stale_generation_guard
    (ControllerState.mk 0 LoadState.idle none none none none [] [])
    5 7 8 1 2 ("NetworkError") (by decide)).2.1

/-- Helper: the loop of updateVisibleRange keeps startIndex at most
max 0 (n - 3) while the walked indices stay below n. -/
theorem rangeFoldAux_fst_le (containerHeight : ℚ) (n : ℤ)
    (rs : List PageRect) (i : ℤ) (acc : ℤ × ℤ)
    (hi : i + rs.length ≤ n) (hacc : acc.1 ≤ max 0 (n - 3)) :
    (rangeFoldAux containerHeight n rs i acc).1 ≤ max 0 (n - 3) := by
  induction rs generalizing i acc with
  | nil => exact hacc
  | cons r rs ih =>
      simp only [List.length_cons] at hi
      simp only [rangeFoldAux]
      apply ih
      · push_cast
        push_cast at hi
        omega
      · dsimp only
        split
        · have hi2 : i ≤ n - 1 := by push_cast at hi; omega
          omega
        · exact hacc

/-- Helper: when no walked page element has its top below the lookahead
band, endIndex is left untouched by the loop. -/
theorem rangeFoldAux_snd_of_all_le (containerHeight : ℚ) (n : ℤ)
    (rs : List PageRect) (i : ℤ) (acc : ℤ × ℤ)
    (h : ∀ r ∈ rs, ¬ r.top > containerHeight * 2) :
    (rangeFoldAux containerHeight n rs i acc).2 = acc.2 := by
  induction rs generalizing i acc with
  | nil => rfl
  | cons r rs ih =>
      simp only [rangeFoldAux]
      rw [ih _ _ (fun x hx => h x (List.mem_cons_of_mem _ hx))]
      dsimp only
      rw [if_neg (h r (List.mem_cons_self _ _))]

/-- Helper: when the last walked page element lies below the lookahead
band, the loop leaves endIndex at min (n-1) (lastIndex + 2). -/
theorem rangeFoldAux_snd_getLast (containerHeight : ℚ) (n : ℤ) :
    ∀ (rs : List PageRect) (i : ℤ) (acc : ℤ × ℤ) (hne : rs ≠ []),
      (rs.getLast hne).top > containerHeight * 2 →
      (rangeFoldAux containerHeight n rs i acc).2 =
        min (n - 1) (i + rs.length + 1) := by
  intro rs
  induction rs with
  | nil => intro i acc hne _; exact absurd rfl hne
  | cons r rs ih =>
      intro i acc hne htop
      cases rs with
      | nil =>
          simp only [List.getLast_singleton] at htop
          simp only [rangeFoldAux]
          rw [if_pos htop]
          simp only [List.length_cons, List.length_nil]
          push_cast
          omega
      | cons b m =>
          rw [List.getLast_cons (by simp)] at htop
          have step : rangeFoldAux containerHeight n (r :: b :: m) i acc =
              rangeFoldAux containerHeight n (b :: m) (i + 1)
                (if r.bottom < -containerHeight then max 0 (i - 2) else acc.1,
                 if r.top > containerHeight * 2 then min (n - 1) (i + 2)
                 else acc.2) := rfl
          rw [step, ih _ _ (by simp) htop]
          simp only [List.length_cons]
          push_cast
          omega

/-- Helper: in a vertically ordered list of page rects, every top is at
most the last element's top. -/
theorem top_le_getLast :
    ∀ (rs : List PageRect) (hne : rs ≠ []),
      rs.Pairwise (fun a b => a.top ≤ b.top) →
      ∀ r ∈ rs, r.top ≤ (rs.getLast hne).top := by
  intro rs
  induction rs with
  | nil => intro hne; exact absurd rfl hne
  | cons a l ih =>
      intro hne hmono r hr
      cases l with
      | nil =>
          simp only [List.mem_singleton] at hr
          subst hr
          exact le_refl _
      | cons b m =>
          rw [List.getLast_cons (by simp)]
          rcases List.mem_cons.mp hr with h | h
          · subst h
            exact (List.pairwise_cons.mp hmono).1 _ (List.getLast_mem _)
          · exact ih (by simp) (List.pairwise_cons.mp hmono).2 r h

/-- C3 counterexample: before the first recomputation the visible range
is the hard-coded {start 0, end 5}, which violates end ≤ pageCount - 1
for a 5-page document. -/
theorem C3_counterexample : ¬ rangeInvariant 5 initialVisibleRange := by
  simp only [rangeInvariant, initialVisibleRange]
  decide

/-- C3 (amended): after any recomputation over a nonempty, vertically
ordered list of page rects, the visible range satisfies
0 ≤ start ≤ end ≤ pageCount-1 and end - start ≥ 4 when pageCount ≥ 5;
the state before the first recomputation, however, is the fixed range
{0, 5}, which violates end ≤ pageCount-1 whenever pageCount ≤ 5. -/
theorem C3_range_invariant_after_update (containerHeight : ℚ)
    (rects : List PageRect) (hne : rects ≠ [])
    (hmono : rects.Pairwise (fun a b => a.top ≤ b.top)) :
    rangeInvariant (rects.length : ℤ)
      (updateVisibleRange containerHeight rects) := by
  have hL : 1 ≤ (rects.length : ℤ) := by
    have := List.length_pos.mpr hne
    omega
  have hfst : (rangeFoldAux containerHeight (rects.length : ℤ) rects 0
      (0, (rects.length : ℤ) - 1)).1 ≤ max 0 ((rects.length : ℤ) - 3) :=
    rangeFoldAux_fst_le _ _ _ _ _ (by omega) (by dsimp only; omega)
  have hsnd : (rangeFoldAux containerHeight (rects.length : ℤ) rects 0
      (0, (rects.length : ℤ) - 1)).2 = (rects.length : ℤ) - 1 := by
    by_cases htop : (rects.getLast hne).top > containerHeight * 2
    · rw [rangeFoldAux_snd_getLast _ _ _ _ _ hne htop]
      omega
    · rw [rangeFoldAux_snd_of_all_le]
      intro r hr hcontra
      exact htop (lt_of_lt_of_le hcontra (top_le_getLast rects hne hmono r hr))
  simp only [updateVisibleRange, rangeInvariant]
  refine ⟨?_, ?_, ?_, ?_⟩ <;> dsimp only <;> omega

/-- Witness for C3 (amended) on five stacked pages of height 90. -/
theorem C3_range_invariant_after_update_witness :
    rangeInvariant
      (([⟨0, 90⟩, ⟨100, 190⟩, ⟨200, 290⟩, ⟨300, 390⟩, ⟨400, 490⟩] :
          List PageRect).length : ℤ)
      (updateVisibleRange 50
        [⟨0, 90⟩, ⟨100, 190⟩, ⟨200, 290⟩, ⟨300, 390⟩, ⟨400, 490⟩]) :=
  C3_range_invariant_after_update 50
    [⟨0, 90⟩, ⟨100, 190⟩, ⟨200, 290⟩, ⟨300, 390⟩, ⟨400, 490⟩]
    (by simp) (by decide)

/-- Helper: a visibility ratio never exceeds 1 (the visible span of an
element is at most its own height). -/
theorem visibility_le_one (containerTop containerHeight : ℚ) (e : PageEntry) :
    visibility containerTop containerHeight e ≤ 1 := by
  simp only [visibility]
  have hub : min (e.top + e.height) (containerTop + containerHeight) -
      max e.top containerTop ≤ e.height := by
    have h1 := min_le_left (e.top + e.height) (containerTop + containerHeight)
    have h2 := le_max_left e.top containerTop
    linarith
  rcases lt_trichotomy e.height 0 with hneg | hz | hpos
  · rw [max_eq_left (by linarith), zero_div]
    norm_num
  · rw [hz, div_zero]
    norm_num
  · rw [div_le_one hpos]
    exact max_le (le_of_lt hpos) hub

/-- Helper: the tracking fold leaves the accumulator alone when no
remaining entry straddles the center or beats the held ratio. -/
theorem trackFold_stay (containerTop containerHeight : ℚ) :
    ∀ (l : List PageEntry) (acc : ℕ × ℚ),
      (∀ x ∈ l, ¬ straddlesCenter containerTop containerHeight x) →
      (∀ x ∈ l, visibility containerTop containerHeight x ≤ acc.2) →
      l.foldl (trackStep containerTop containerHeight) acc = acc := by
  intro l
  induction l with
  | nil => intro acc _ _; rfl
  | cons e l ih =>
      intro acc hno hle
      have hstep : trackStep containerTop containerHeight acc e = acc := by
        simp only [trackStep]
        rw [if_neg (hno e (List.mem_cons_self _ _)),
          if_neg (not_lt.mpr (hle e (List.mem_cons_self _ _)))]
      simp only [List.foldl_cons, hstep]
      exact ih acc (fun x hx => hno x (List.mem_cons_of_mem _ hx))
        (fun x hx => hle x (List.mem_cons_of_mem _ hx))

/-- Helper: with no center-straddling entry, the tracking fold computes
the running maximum of the visibility ratios, and its winner either is
the untouched accumulator or attains the final ratio. -/
theorem trackFold_no_straddle (containerTop containerHeight : ℚ) :
    ∀ (l : List PageEntry) (acc : ℕ × ℚ),
      (∀ x ∈ l, ¬ straddlesCenter containerTop containerHeight x) →
      (l.foldl (trackStep containerTop containerHeight) acc).2 =
        l.foldl (fun m x => max m (visibility containerTop containerHeight x))
          acc.2 ∧
      (l.foldl (trackStep containerTop containerHeight) acc = acc ∨
        ∃ x ∈ l,
          (l.foldl (trackStep containerTop containerHeight) acc).1 =
            x.pageNumber ∧
          visibility containerTop containerHeight x =
            (l.foldl (trackStep containerTop containerHeight) acc).2) := by
  intro l
  induction l with
  | nil => intro acc _; exact ⟨rfl, Or.inl rfl⟩
  | cons e l ih =>
      intro acc h
      have he : ¬ straddlesCenter containerTop containerHeight e :=
        h e (List.mem_cons_self _ _)
      have hl : ∀ x ∈ l, ¬ straddlesCenter containerTop containerHeight x :=
        fun x hx => h x (List.mem_cons_of_mem _ hx)
      have hstep : trackStep containerTop containerHeight acc e =
          if acc.2 < visibility containerTop containerHeight e
          then (e.pageNumber, visibility containerTop containerHeight e)
          else acc := by
        simp only [trackStep]
        rw [if_neg he]
      constructor
      · simp only [List.foldl_cons]
        rw [(ih _ hl).1, hstep]
        by_cases hlt : acc.2 < visibility containerTop containerHeight e
        · rw [if_pos hlt]
          dsimp only
          rw [max_eq_right (le_of_lt hlt)]
        · rw [if_neg hlt]
          rw [max_eq_left (not_lt.mp hlt)]
      · simp only [List.foldl_cons]
        rcases (ih (trackStep containerTop containerHeight acc e) hl).2 with
          hc | ⟨w, hw, h1, h2⟩
        · by_cases hlt : acc.2 < visibility containerTop containerHeight e
          · refine Or.inr ⟨e, List.mem_cons_self _ _, ?_, ?_⟩
            · rw [hc, hstep, if_pos hlt]
            · rw [hc, hstep, if_pos hlt]
          · refine Or.inl ?_
            rw [hc, hstep, if_neg hlt]
        · exact Or.inr ⟨w, List.mem_cons_of_mem _ hw, h1, h2⟩

/-- Helper: the tracking fold ends on (page, 1) for the last
center-straddling entry, regardless of the accumulator. -/
theorem trackFold_straddle (containerTop containerHeight : ℚ) :
    ∀ (l : List PageEntry) (acc : ℕ × ℚ) (w : PageEntry),
      (l.filter
        (fun e => decide (straddlesCenter containerTop containerHeight e))
        ).getLast? = some w →
      l.foldl (trackStep containerTop containerHeight) acc =
        (w.pageNumber, 1) := by
  intro l
  induction l with
  | nil => intro acc w h; simp at h
  | cons e l ih =>
      intro acc w h
      by_cases hs : straddlesCenter containerTop containerHeight e
      · simp only [List.filter_cons, decide_eq_true_eq] at h
        rw [if_pos hs] at h
        cases hfl : l.filter
            (fun e => decide (straddlesCenter containerTop containerHeight e))
          with
        | nil =>
            rw [hfl, List.getLast?_singleton, Option.some.injEq] at h
            subst h
            have hstep : trackStep containerTop containerHeight acc e =
                (e.pageNumber, 1) := by
              simp only [trackStep]
              rw [if_pos hs]
            simp only [List.foldl_cons, hstep]
            have hno : ∀ x ∈ l,
                ¬ straddlesCenter containerTop containerHeight x := by
              intro x hx hsx
              have hmem : x ∈ l.filter (fun e =>
                  decide (straddlesCenter containerTop containerHeight e)) :=
                List.mem_filter.mpr ⟨hx, decide_eq_true hsx⟩
              rw [hfl] at hmem
              exact absurd hmem (List.not_mem_nil x)
            exact trackFold_stay containerTop containerHeight l
              (e.pageNumber, 1) hno
              (fun x hx => visibility_le_one containerTop containerHeight x)
        | cons b m =>
            rw [hfl, List.getLast?_cons_cons] at h
            simp only [List.foldl_cons]
            exact ih _ w (by rw [hfl]; exact h)
      · simp only [List.filter_cons, decide_eq_true_eq] at h
        rw [if_neg hs] at h
        simp only [List.foldl_cons]
        exact ih _ w h

/-- C5: the page-tracking recomputation selects the maximum-ratio page,
except that a center-straddling page is force-selected (the last such
page wins, with effective ratio 1); a page-change notification fires iff
the winner differs from the last-reported page and the winning ratio
meets the threshold. -/
theorem C5_page_tracking_winner (containerTop containerHeight threshold : ℚ)
    (lastPage : ℕ) (entries : List PageEntry) :
    ((entries.filter
        (fun e => decide (straddlesCenter containerTop containerHeight e))
        ).getLast? = none →
      (calculateVisiblePage containerTop containerHeight entries).2 =
        specMaxVisibility containerTop containerHeight entries ∧
      (0 < (calculateVisiblePage containerTop containerHeight entries).2 →
        ∃ e ∈ entries,
          (calculateVisiblePage containerTop containerHeight entries).1 =
            e.pageNumber ∧
          visibility containerTop containerHeight e =
            (calculateVisiblePage containerTop containerHeight entries).2)) ∧
    (∀ w : PageEntry,
      (entries.filter
        (fun e => decide (straddlesCenter containerTop containerHeight e))
        ).getLast? = some w →
      calculateVisiblePage containerTop containerHeight entries =
        (w.pageNumber, 1)) ∧
    (shouldNotify threshold lastPage
        (calculateVisiblePage containerTop containerHeight entries) ↔
      threshold ≤
          (calculateVisiblePage containerTop containerHeight entries).2 ∧
        (calculateVisiblePage containerTop containerHeight entries).1 ≠
          lastPage) := by
  refine ⟨?_, ?_, Iff.rfl⟩
  · intro hnone
    rw [List.getLast?_eq_none_iff] at hnone
    have hno : ∀ x ∈ entries,
        ¬ straddlesCenter containerTop containerHeight x := by
      intro x hx hsx
      have hmem : x ∈ entries.filter (fun e =>
          decide (straddlesCenter containerTop containerHeight e)) :=
        List.mem_filter.mpr ⟨hx, decide_eq_true hsx⟩
      rw [hnone] at hmem
      exact absurd hmem (List.not_mem_nil x)
    have h := trackFold_no_straddle containerTop containerHeight entries
      (1, 0) hno
    refine ⟨h.1, fun hpos => ?_⟩
    rcases h.2 with hc | ⟨e, he, h1, h2⟩
    · rw [calculateVisiblePage] at hpos
      rw [hc] at hpos
      exact absurd hpos (by norm_num)
    · exact ⟨e, he, h1, h2⟩
  · intro w hw
    exact trackFold_straddle containerTop containerHeight entries (1, 0) w hw

/-- Witness for C5: with a 100-tall band over two 100-tall pages, page 1
straddles the center and wins with ratio 1. -/
theorem C5_page_tracking_winner_witness :
    calculateVisiblePage 0 100
      [PageEntry.mk 1 0 100, PageEntry.mk 2 100 100] = (1, 1) :=
  (C5_page_tracking_winner 0 100 (1/2) 1
    [PageEntry.mk 1 0 100, PageEntry.mk 2 100 100]).2.1
    (PageEntry.mk 1 0 100)
    (by
      have hp1 : straddlesCenter 0 100 (PageEntry.mk 1 0 100) := by
        simp only [straddlesCenter]
        norm_num
      have hp2 : ¬ straddlesCenter 0 100 (PageEntry.mk 2 100 100) := by
        simp only [straddlesCenter]
        intro hcon
        have := hcon.1
        norm_num at this
      simp only [List.filter_cons, List.filter_nil, decide_eq_true_eq]
      rw [if_pos hp1, if_neg hp2]
      exact List.getLast?_singleton _)

end PdfjsReact
